import Mathlib

/-!
Shallow embedding of the window runtime core of `src/window.rs`
(`GooeyWindow`): event bubbling, mouse capture state, hover tracking,
keyboard focus/activation, and the per-frame layout constraint pass.

Widget identifiers are `Nat`; geometry is over `Int` (signed pixels `Px`)
and `Nat` (unsigned pixels `UPx`).  Code living outside `src/` (the
`Tree` accessors and queries) is modelled from the spec and marked as
such in doc comments.
-/

namespace Cushy

/-- `EventHandling` — a widget handler either consumes an event
(`HANDLED`) or lets it bubble (`IGNORED`). -/
inductive EventHandling where
  | handled
  | ignored
deriving DecidableEq, Repr, BEq

/-- Signed pixel point (`Point<Px>`). -/
structure GPoint where
  x : Int
  y : Int
deriving DecidableEq, Repr

/-- Componentwise subtraction of points (`location - origin`). -/
def GPoint.sub (a b : GPoint) : GPoint := ⟨a.x - b.x, a.y - b.y⟩

/-- A layout rectangle (`Rect<Px>`): origin plus extents. -/
structure GRect where
  origin : GPoint
  width : Int
  height : Int
deriving DecidableEq, Repr

/-- Whether a rectangle contains a point (half-open on the far edges). -/
def GRect.contains (r : GRect) (p : GPoint) : Bool :=
  r.origin.x ≤ p.x && p.x < r.origin.x + r.width &&
    r.origin.y ≤ p.y && p.y < r.origin.y + r.height

/-! Association lists model the `HashMap`s of `MouseState` extensionally:
`insertA` binds a key (replacing any previous binding) and `eraseA`
removes a key's binding, mirroring `HashMap::insert` / `remove`. -/

/-- Map lookup (`HashMap::get`). -/
def lookupA {β : Type} : List (Nat × β) → Nat → Option β
  | [], _ => none
  | e :: rest, k => if e.1 = k then some e.2 else lookupA rest k

/-- Map removal (`HashMap::remove`). -/
def eraseA {β : Type} : List (Nat × β) → Nat → List (Nat × β)
  | [], _ => []
  | e :: rest, k => if e.1 = k then eraseA rest k else e :: eraseA rest k

/-- Map insertion (`HashMap::insert`), replacing any previous binding. -/
def insertA {β : Type} (l : List (Nat × β)) (k : Nat) (v : β) : List (Nat × β) :=
  (k, v) :: eraseA l k

theorem lookupA_eraseA {β : Type} (l : List (Nat × β)) (k k' : Nat) :
    lookupA (eraseA l k) k' = if k' = k then none else lookupA l k' := by
  induction l with
  | nil => simp [lookupA, eraseA]
  | cons e rest ih =>
    simp only [eraseA]
    by_cases h1 : e.1 = k <;> by_cases h2 : e.1 = k' <;>
      by_cases h3 : k' = k <;> simp_all [lookupA]

theorem lookupA_insertA {β : Type} (l : List (Nat × β)) (k : Nat) (v : β)
    (k' : Nat) :
    lookupA (insertA l k v) k' = if k' = k then some v else lookupA l k' := by
  by_cases h : k' = k <;>
    simp_all [lookupA, insertA, lookupA_eraseA, eq_comm]

/-- The widget tree's parent structure: `parent i` is the parent node of
`i` (none for the root).  `depth` is any measure strictly decreasing
along parent links; it witnesses that the tree is acyclic, which the
Rust code relies on for `recursively_handle_event` to terminate. -/
structure GTree where
  parent : Nat → Option Nat
  depth : Nat → Nat
  parent_depth : ∀ i j, parent i = some j → depth j < depth i

/-- `recursively_handle_event` (src/window.rs:934): invoke the handler at
the target; on `HANDLED` return the target, on `IGNORED` retry at the
parent, returning `none` when the root ignores the event. -/
def recursivelyHandleEvent (t : GTree) (eachWidget : Nat → EventHandling)
    (target : Nat) : Option Nat :=
  match eachWidget target with
  | .handled => some target
  | .ignored =>
    match h : t.parent target with
    | some p => recursivelyHandleEvent t eachWidget p
    | none => none
termination_by t.depth target
decreasing_by exact t.parent_depth _ _ h

/-- The ancestor chain of a node: the node, its parent, …, up to the
root. -/
def ancestorChain (t : GTree) (target : Nat) : List Nat :=
  target ::
    match h : t.parent target with
    | some p => ancestorChain t p
    | none => []
termination_by t.depth target
decreasing_by exact t.parent_depth _ _ h

/-- A list is linked by parent pointers and ends at the root. -/
def parentLinked (t : GTree) : List Nat → Prop
  | [] => True
  | [x] => t.parent x = none
  | x :: y :: rest => t.parent x = some y ∧ parentLinked t (y :: rest)

theorem recursivelyHandleEvent_handled (t : GTree)
    (f : Nat → EventHandling) (target : Nat) (h : f target = .handled) :
    recursivelyHandleEvent t f target = some target := by
  unfold recursivelyHandleEvent
  rw [h]

theorem recursivelyHandleEvent_ignored_root (t : GTree)
    (f : Nat → EventHandling) (target : Nat) (h : f target = .ignored)
    (hp : t.parent target = none) :
    recursivelyHandleEvent t f target = none := by
  unfold recursivelyHandleEvent
  rw [h]
  split <;> simp_all
  split <;> simp_all

theorem recursivelyHandleEvent_ignored_parent (t : GTree)
    (f : Nat → EventHandling) (target p : Nat) (h : f target = .ignored)
    (hp : t.parent target = some p) :
    recursivelyHandleEvent t f target = recursivelyHandleEvent t f p := by
  conv_lhs => unfold recursivelyHandleEvent
  rw [h]
  split <;> simp_all
  split <;> simp_all

theorem ancestorChain_eq (t : GTree) (target : Nat) :
    ancestorChain t target = target ::
      (match t.parent target with
       | some p => ancestorChain t p
       | none => []) := by
  conv_lhs => unfold ancestorChain
  split <;> simp_all

theorem bubbling_find_aux (t : GTree) (f : Nat → EventHandling) :
    ∀ n target, t.depth target ≤ n →
      recursivelyHandleEvent t f target =
        (ancestorChain t target).find? (fun k => f k == EventHandling.handled) := by
  intro n
  induction n with
  | zero =>
    intro target hd
    cases hf : f target with
    | handled =>
      rw [recursivelyHandleEvent_handled t f target hf, ancestorChain_eq]
      rw [List.find?_cons_of_pos _ (by simp only [hf]; rfl)]
    | ignored =>
      cases hp : t.parent target with
      | some p =>
        exact absurd (t.parent_depth target p hp) (by omega)
      | none =>
        rw [recursivelyHandleEvent_ignored_root t f target hf hp, ancestorChain_eq, hp]
        rw [List.find?_cons_of_neg _ (by simp only [hf]; decide)]
        rfl
  | succ n ih =>
    intro target hd
    cases hf : f target with
    | handled =>
      rw [recursivelyHandleEvent_handled t f target hf, ancestorChain_eq]
      rw [List.find?_cons_of_pos _ (by simp only [hf]; rfl)]
    | ignored =>
      cases hp : t.parent target with
      | some p =>
        rw [recursivelyHandleEvent_ignored_parent t f target p hf hp,
          ancestorChain_eq, hp]
        rw [List.find?_cons_of_neg _ (by simp only [hf]; decide)]
        exact ih p (by have := t.parent_depth target p hp; omega)
      | none =>
        rw [recursivelyHandleEvent_ignored_root t f target hf hp, ancestorChain_eq, hp]
        rw [List.find?_cons_of_neg _ (by simp only [hf]; decide)]
        rfl

theorem parentLinked_ancestorChain (t : GTree) :
    ∀ n target, t.depth target ≤ n → parentLinked t (ancestorChain t target) := by
  intro n
  induction n with
  | zero =>
    intro target hd
    cases hp : t.parent target with
    | some p => exact absurd (t.parent_depth target p hp) (by omega)
    | none =>
      rw [ancestorChain_eq, hp]
      exact hp
  | succ n ih =>
    intro target hd
    cases hp : t.parent target with
    | some p =>
      rw [ancestorChain_eq, hp]
      show parentLinked t (target :: ancestorChain t p)
      rw [ancestorChain_eq t p]
      exact ⟨hp, by
        rw [← ancestorChain_eq]
        exact ih p (by have := t.parent_depth target p hp; omega)⟩
    | none =>
      rw [ancestorChain_eq, hp]
      exact hp

/-- C2: event delivery starting at `target` visits exactly the ancestor
chain from `target` toward the root, in order, invoking each handler and
stopping at the first node whose handler returns `Handled` (returned as
the consumer); when every node up to and including the root ignores the
event, no consumer is returned. -/
theorem C2_bubbling_visits_ancestor_chain (t : GTree)
    (f : Nat → EventHandling) (target : Nat) :
    recursivelyHandleEvent t f target =
        (ancestorChain t target).find? (fun k => f k == EventHandling.handled)
      ∧ (ancestorChain t target).head? = some target
      ∧ parentLinked t (ancestorChain t target) :=
  ⟨bubbling_find_aux t f (t.depth target) target le_rfl,
   by rw [ancestorChain_eq]; rfl,
   parentLinked_ancestorChain t (t.depth target) target le_rfl⟩

/-- `MouseState` (src/window.rs:946): last known cursor location, the
hovered widget, and the per-device `button → capturing widget` map. -/
structure MouseState where
  location : Option GPoint
  widget : Option Nat
  devices : List (Nat × List (Nat × Nat))
deriving DecidableEq, Repr

/-- Observable side effects of the pointer/keyboard handlers: context
calls made on widgets and on the tree. -/
inductive OutEvent where
  | clearFocus
  | mouseDownDispatch (start : Nat)
  | mouseUp (target : Nat) (relative : Option GPoint) (device button : Nat)
  | mouseDrag (target : Nat) (relative : GPoint) (device button : Nat)
  | hoverEnter (target : Nat) (relative : GPoint)
  | clearHover
deriving DecidableEq, Repr

/-- The per-window world the pointer handlers read: the widget tree, each
node's last computed layout rectangle, and the frame's render order
(earliest rendered first). -/
structure WWorld where
  tree : GTree
  lastLayout : Nat → Option GRect
  renderOrder : List Nat

/-- Lookup of the capture map entry for a (device, button) pair. -/
def lookup2 (devices : List (Nat × List (Nat × Nat))) (device button : Nat) :
    Option Nat :=
  (lookupA devices device).bind (fun m => lookupA m button)

/-- `GooeyWindow::mouse_input` (src/window.rs:837).  On a press: clear
focus tree-wide; then, when a cursor location and a hovered widget both
exist, bubble a mouse-down from the hovered widget and record the
consuming node (if any) in the (device, button) capture map.  On a
release: look up and remove the (device, button) entry, dropping the
device's map entirely when it empties, and deliver mouse-up to the
captured widget with the offset when a layout and a location are both
known, and no offset otherwise.  `mdown` abstracts each widget's
response to the bubbled mouse-down. -/
def mouseInput (w : WWorld) (mdown : Nat → EventHandling) (st : MouseState)
    (device button : Nat) (pressed : Bool) : MouseState × List OutEvent :=
  if pressed then
    match st.location, st.widget with
    | some _, some hovered =>
      match recursivelyHandleEvent w.tree mdown hovered with
      | some handler =>
        ({ st with
            devices := insertA st.devices device
              (insertA ((lookupA st.devices device).getD []) button handler) },
         [OutEvent.clearFocus, OutEvent.mouseDownDispatch hovered])
      | none => (st, [OutEvent.clearFocus, OutEvent.mouseDownDispatch hovered])
    | _, _ => (st, [OutEvent.clearFocus])
  else
    match lookupA st.devices device with
    | none => (st, [])
    | some deviceButtons =>
      match lookupA deviceButtons button with
      | none => (st, [])
      | some handler =>
        let remaining := eraseA deviceButtons button
        let devices := if remaining.isEmpty then eraseA st.devices device
          else insertA st.devices device remaining
        let relative := match w.lastLayout handler, st.location with
          | some rect, some loc => some (loc.sub rect.origin)
          | _, _ => none
        ({ st with devices := devices },
         [OutEvent.mouseUp handler relative device button])

theorem lookup2_insert_self (devices : List (Nat × List (Nat × Nat)))
    (device button h : Nat) :
    lookup2 (insertA devices device
      (insertA ((lookupA devices device).getD []) button h)) device button
      = some h := by
  simp [lookup2, lookupA_insertA]

theorem lookup2_insert_other (devices : List (Nat × List (Nat × Nat)))
    (device button h d b : Nat) (hne : ¬(d = device ∧ b = button)) :
    lookup2 (insertA devices device
      (insertA ((lookupA devices device).getD []) button h)) d b
      = lookup2 devices d b := by
  by_cases hd : d = device
  · subst hd
    have hb : ¬b = button := fun hb => hne ⟨rfl, hb⟩
    cases hm : lookupA devices d with
    | none =>
      simp [lookup2, lookupA_insertA, lookupA_eraseA, hb, hm, lookupA]
      omega
    | some m =>
      simp [lookup2, lookupA_insertA, lookupA_eraseA, hb, hm, lookupA]
      intro heq
      exact absurd heq.symm hb
  · simp [lookup2, lookupA_insertA, hd]

theorem mouseInput_press_consumed (w : WWorld) (mdown : Nat → EventHandling)
    (st : MouseState) (device button : Nat) (loc : GPoint)
    (hovered handler : Nat) (hloc : st.location = some loc)
    (hhov : st.widget = some hovered)
    (hcons : recursivelyHandleEvent w.tree mdown hovered = some handler) :
    (mouseInput w mdown st device button true).1
      = { st with devices := (insertA st.devices device
            (insertA ((lookupA st.devices device).getD []) button handler)) }
    ∧ (mouseInput w mdown st device button true).2
      = [OutEvent.clearFocus, OutEvent.mouseDownDispatch hovered] := by
  simp [mouseInput, hloc, hhov, hcons]

theorem mouseInput_release_entry (w : WWorld) (mdown : Nat → EventHandling)
    (st : MouseState) (device button handler : Nat)
    (hentry : lookup2 st.devices device button = some handler) :
    lookup2 (mouseInput w mdown st device button false).1.devices device button
        = none
    ∧ ((eraseA ((lookupA st.devices device).getD []) button).isEmpty →
        lookupA (mouseInput w mdown st device button false).1.devices device
          = none)
    ∧ (mouseInput w mdown st device button false).2
      = [OutEvent.mouseUp handler
          (match w.lastLayout handler, st.location with
           | some rect, some l => some (l.sub rect.origin)
           | _, _ => none) device button] := by
  obtain ⟨m, hm, hb⟩ : ∃ m, lookupA st.devices device = some m
      ∧ lookupA m button = some handler := by
    cases hmm : lookupA st.devices device with
    | none => simp [lookup2, hmm] at hentry
    | some m =>
      refine ⟨m, rfl, ?_⟩
      simpa [lookup2, hmm] using hentry
  refine ⟨?_, ?_, ?_⟩
  · by_cases he : (eraseA m button).isEmpty <;>
      simp [mouseInput, hm, hb, he, lookup2, lookupA_eraseA, lookupA_insertA]
  · intro he
    rw [hm] at he
    simp only [Option.getD_some] at he
    simp [mouseInput, hm, hb, he, lookupA_eraseA]
  · by_cases he : (eraseA m button).isEmpty <;>
      simp [mouseInput, hm, hb, he]

/-- C1: a press consumed by `handler` creates exactly one capture-map
entry `(device, button) ↦ handler`, leaving all other entries unchanged;
the matching release removes that entry (also dropping the device's map
when it empties), delivers mouse-up to the captured widget with an
offset exactly when a last layout and a cursor location are both known
and with no offset otherwise — wherever the cursor is — and after a
press/release pair no entry is left dangling. -/
theorem C1_capture_entry_lifecycle (w : WWorld) (mdown : Nat → EventHandling)
    (st st' : MouseState) (device button : Nat) (loc : GPoint)
    (hovered handler : Nat) (hloc : st.location = some loc)
    (hhov : st.widget = some hovered)
    (hcons : recursivelyHandleEvent w.tree mdown hovered = some handler)
    (hentry : lookup2 st'.devices device button = some handler) :
    lookup2 (mouseInput w mdown st device button true).1.devices device button
        = some handler
    ∧ (∀ d b, ¬(d = device ∧ b = button) →
        lookup2 (mouseInput w mdown st device button true).1.devices d b
          = lookup2 st.devices d b)
    ∧ lookup2 (mouseInput w mdown st' device button false).1.devices
        device button = none
    ∧ ((eraseA ((lookupA st'.devices device).getD []) button).isEmpty →
        lookupA (mouseInput w mdown st' device button false).1.devices device
          = none)
    ∧ (mouseInput w mdown st' device button false).2
      = [OutEvent.mouseUp handler
          (match w.lastLayout handler, st'.location with
           | some rect, some l => some (l.sub rect.origin)
           | _, _ => none) device button]
    ∧ lookup2 (mouseInput w mdown
        (mouseInput w mdown st device button true).1
        device button false).1.devices device button = none := by
  obtain ⟨hst, -⟩ :=
    mouseInput_press_consumed w mdown st device button loc hovered handler
      hloc hhov hcons
  obtain ⟨hr1, hr2, hr3⟩ :=
    mouseInput_release_entry w mdown st' device button handler hentry
  refine ⟨?_, ?_, hr1, hr2, hr3, ?_⟩
  · rw [hst]
    exact lookup2_insert_self st.devices device button handler
  · intro d b hne
    rw [hst]
    exact lookup2_insert_other st.devices device button handler d b hne
  · have hentry' : lookup2 (mouseInput w mdown st device button true).1.devices
        device button = some handler := by
      rw [hst]
      exact lookup2_insert_self st.devices device button handler
    exact (mouseInput_release_entry w mdown _ device button handler hentry').1

/-- A concrete three-node tree: 0 is the root, 1 its child, 2 a child
of 1. -/
def exTree : GTree where
  parent i := if i = 1 then some 0 else if i = 2 then some 1 else none
  depth i := i
  parent_depth := by
    intro i j h
    simp only at h
    split at h
    · simp_all
    · split at h <;> simp_all
      omega

def exLayout : Nat → Option GRect
  | 0 => some ⟨⟨0, 0⟩, 200, 100⟩
  | 1 => some ⟨⟨10, 10⟩, 100, 50⟩
  | 2 => some ⟨⟨20, 20⟩, 40, 20⟩
  | _ => none

def exWorld : WWorld where
  tree := exTree
  lastLayout := exLayout
  renderOrder := [0, 1, 2]

/-- Handler responses: widget 1 consumes, everything else ignores. -/
def exDown (i : Nat) : EventHandling :=
  if i = 1 then .handled else .ignored

def exPressSt : MouseState :=
  { location := some ⟨25, 25⟩, widget := some 2, devices := [] }

def exRelSt : MouseState :=
  { location := some ⟨500, 500⟩, widget := none, devices := [(7, [(3, 1)])] }

theorem C1_capture_entry_lifecycle_witness :
    recursivelyHandleEvent exWorld.tree exDown 2 = some 1
    ∧ lookup2 (mouseInput exWorld exDown exPressSt 7 3 true).1.devices 7 3
        = some 1
    ∧ lookup2 (mouseInput exWorld exDown exRelSt 7 3 false).1.devices 7 3
        = none
    ∧ (mouseInput exWorld exDown exRelSt 7 3 false).2
        = [OutEvent.mouseUp 1 (some ⟨490, 490⟩) 7 3] := by
  have hc : recursivelyHandleEvent exWorld.tree exDown 2 = some 1 := by
    simp [recursivelyHandleEvent, exWorld, exTree, exDown]
  have h := C1_capture_entry_lifecycle exWorld exDown exPressSt exRelSt 7 3
    ⟨25, 25⟩ 2 1 rfl rfl hc rfl
  refine ⟨hc, h.1, h.2.2.1, ?_⟩
  rw [h.2.2.2.2.1]
  rfl

/-- C6: every press clears keyboard focus first — the clear-focus call
precedes any mouse-down dispatch — and a mouse-down is bubbled from the
hovered widget iff both a hovered widget and a cursor location exist at
press time, with the consuming node (if any) recorded in the
(device, button) capture map and nothing recorded otherwise. -/
theorem C6_press_clears_focus_first (w : WWorld) (mdown : Nat → EventHandling)
    (st : MouseState) (device button : Nat) :
    (mouseInput w mdown st device button true).2.head?
        = some OutEvent.clearFocus
    ∧ (∀ loc hovered, st.location = some loc → st.widget = some hovered →
        (mouseInput w mdown st device button true).2
          = [OutEvent.clearFocus, OutEvent.mouseDownDispatch hovered]
        ∧ (∀ handler,
            recursivelyHandleEvent w.tree mdown hovered = some handler →
            lookup2 (mouseInput w mdown st device button true).1.devices
              device button = some handler)
        ∧ (recursivelyHandleEvent w.tree mdown hovered = none →
            (mouseInput w mdown st device button true).1 = st))
    ∧ (st.location = none ∨ st.widget = none →
        (mouseInput w mdown st device button true).2 = [OutEvent.clearFocus]
        ∧ (mouseInput w mdown st device button true).1 = st) := by
  refine ⟨?_, ?_, ?_⟩
  · cases hl : st.location with
    | none => simp [mouseInput, hl]
    | some loc =>
      cases hw : st.widget with
      | none => simp [mouseInput, hl, hw]
      | some hovered =>
        cases hc : recursivelyHandleEvent w.tree mdown hovered <;>
          simp [mouseInput, hl, hw, hc]
  · intro loc hovered hloc hhov
    refine ⟨?_, ?_, ?_⟩
    · cases hc : recursivelyHandleEvent w.tree mdown hovered <;>
        simp [mouseInput, hloc, hhov, hc]
    · intro handler hh
      simp only [mouseInput, hloc, hhov, hh]
      exact lookup2_insert_self st.devices device button handler
    · intro hn
      simp [mouseInput, hloc, hhov, hn]
  · intro h
    rcases h with hl | hw
    · simp [mouseInput, hl]
    · cases hl : st.location with
      | none => simp [mouseInput, hl]
      | some loc => simp [mouseInput, hl, hw]

theorem C6_press_clears_focus_first_witness :
    (mouseInput exWorld exDown exPressSt 7 3 true).2
        = [OutEvent.clearFocus, OutEvent.mouseDownDispatch 2]
    ∧ lookup2 (mouseInput exWorld exDown exPressSt 7 3 true).1.devices 7 3
        = some 1 := by
  have hc : recursivelyHandleEvent exWorld.tree exDown 2 = some 1 := by
    simp [recursivelyHandleEvent, exWorld, exTree, exDown]
  have h := (C6_press_clears_focus_first exWorld exDown exPressSt 7 3).2.1
    ⟨25, 25⟩ 2 rfl rfl
  exact ⟨h.1, h.2.1 1 hc⟩

/-- Modelled from the spec: `Tree::widgets_at_point` (the tree query is
not under src/) — "produces nodes whose last-computed layout rectangle
contains `point`, ordered by most-recently-rendered-first (topmost
first)". -/
def widgetsAtPoint (w : WWorld) (p : GPoint) : List Nat :=
  w.renderOrder.reverse.filter (fun i =>
    match w.lastLayout i with
    | some r => r.contains p
    | none => false)

/-- Whether node `i`'s precise hit test passes at the cursor's offset
from its last layout origin (false when it has no layout). -/
def probePasses (w : WWorld) (hitTest : Nat → GPoint → Bool) (loc : GPoint)
    (i : Nat) : Bool :=
  match w.lastLayout i with
  | some r => hitTest i (loc.sub r.origin)
  | none => false

/-- A node's last layout origin (zero if it has none). -/
def layoutOrigin (w : WWorld) (i : Nat) : GPoint :=
  ((w.lastLayout i).getD ⟨⟨0, 0⟩, 0, 0⟩).origin

/-- The hover loop of `cursor_moved` (src/window.rs:794): probe each
candidate in order and stop at the first whose precise hit test passes;
the outer `none` models the `expect("passed hit test")` panic on a
candidate that has no last layout. -/
def hoverProbe (w : WWorld) (hitTest : Nat → GPoint → Bool) (loc : GPoint) :
    List Nat → Option (Option (Nat × GPoint))
  | [] => some none
  | i :: rest =>
    match w.lastLayout i with
    | none => none
    | some r =>
      if hitTest i (loc.sub r.origin) then some (some (i, loc.sub r.origin))
      else hoverProbe w hitTest loc rest

/-- `GooeyWindow::cursor_moved` (src/window.rs:756): record the new
location; when the device has an active capture map, deliver a drag
event to each captured (button, widget) pair at the offset from that
widget's last layout origin — instead of recomputing hover — and
otherwise recompute hover by probing `widgets_at_point`, marking the
first candidate that passes its hit test as hovered (with a hover-enter
notification) or clearing hover tree-wide when none passes.  The outer
`none` models the `expect("passed hit test")` panics. -/
def cursorMoved (w : WWorld) (hitTest : Nat → GPoint → Bool) (st : MouseState)
    (device : Nat) (location : GPoint) : Option (MouseState × List OutEvent) :=
  let st1 := { st with location := some location }
  match lookupA st1.devices device with
  | some state =>
    (state.mapM (fun e =>
      (w.lastLayout e.2).map (fun r =>
        OutEvent.mouseDrag e.2 (location.sub r.origin) device e.1))).map
      (fun evs => (st1, evs))
  | none =>
    let st2 := { st1 with widget := none }
    match hoverProbe w hitTest location (widgetsAtPoint w location) with
    | none => none
    | some (some (i, relative)) =>
      some ({ st2 with widget := some i }, [OutEvent.hoverEnter i relative])
    | some none => some (st2, [OutEvent.clearHover])

theorem mapM_eq_map_of_forall {α β : Type} (f : α → Option β) (g : α → β) :
    ∀ l : List α, (∀ a ∈ l, f a = some (g a)) → l.mapM f = some (l.map g) := by
  intro l h
  induction l with
  | nil => rfl
  | cons a rest ih =>
    rw [List.mapM_cons, h a (List.mem_cons_self a rest),
      ih (fun b hb => h b (List.mem_cons_of_mem a hb))]
    rfl

theorem hoverProbe_eq_find (w : WWorld) (hitTest : Nat → GPoint → Bool)
    (loc : GPoint) :
    ∀ l : List Nat, (∀ i ∈ l, (w.lastLayout i).isSome) →
      hoverProbe w hitTest loc l =
        some ((l.find? (probePasses w hitTest loc)).map
          (fun i => (i, loc.sub (layoutOrigin w i)))) := by
  intro l h
  induction l with
  | nil => rfl
  | cons i rest ih =>
    have hi := h i (List.mem_cons_self i rest)
    cases hl : w.lastLayout i with
    | none => rw [hl] at hi; simp at hi
    | some r =>
      by_cases ht : hitTest i (loc.sub r.origin)
      · rw [hoverProbe, hl]
        simp only [ht, if_true]
        rw [List.find?_cons_of_pos _ (by simp [probePasses, hl, ht])]
        simp [layoutOrigin, hl]
      · rw [hoverProbe, hl]
        simp only [ht, if_false]
        rw [List.find?_cons_of_neg _ (by simp [probePasses, hl, ht])]
        exact ih (fun b hb => h b (List.mem_cons_of_mem i hb))

theorem widgetsAtPoint_layout_isSome (w : WWorld) (p : GPoint) :
    ∀ i ∈ widgetsAtPoint w p, (w.lastLayout i).isSome := by
  intro i hi
  obtain ⟨-, hf⟩ := List.mem_filter.mp hi
  cases h : w.lastLayout i with
  | none => rw [h] at hf; simp at hf
  | some r => simp

/-- C3: while a device has an active capture map, a cursor move delivers
one drag event per captured (button, widget) pair at the offset of the
cursor from that widget's last layout origin, and leaves the hovered
widget untouched (no hover recomputation); with no capture for the
device, the move recomputes hover instead and emits no drag event. -/
theorem C3_drag_capture_suppresses_hover (w : WWorld)
    (hitTest : Nat → GPoint → Bool) (st : MouseState) (device : Nat)
    (location : GPoint) :
    (∀ (state : List (Nat × Nat)) (lay : Nat × Nat → GRect),
      lookupA st.devices device = some state →
      (∀ e ∈ state, w.lastLayout e.2 = some (lay e)) →
      cursorMoved w hitTest st device location
        = some ({ st with location := some location },
            state.map (fun e =>
              OutEvent.mouseDrag e.2 (location.sub (lay e).origin)
                device e.1)))
    ∧ (lookupA st.devices device = none →
        ∀ st' evs, cursorMoved w hitTest st device location = some (st', evs) →
          (∀ t r d b, OutEvent.mouseDrag t r d b ∉ evs)
          ∧ (evs = [OutEvent.clearHover] ∨
              ∃ i rel, evs = [OutEvent.hoverEnter i rel]
                ∧ st'.widget = some i)) := by
  constructor
  · intro state lay hstate hlay
    have hmm := mapM_eq_map_of_forall
      (fun e => (w.lastLayout e.2).map (fun r =>
        OutEvent.mouseDrag e.2 (location.sub r.origin) device e.1))
      (fun e => OutEvent.mouseDrag e.2 (location.sub (lay e).origin)
        device e.1) state
      (by intro e he; simp [hlay e he])
    simp only [cursorMoved, hstate, hmm]
    rfl
  · intro hnone st' evs hcm
    simp only [cursorMoved, hnone] at hcm
    rcases hpr : hoverProbe w hitTest location (widgetsAtPoint w location) with
      _ | (_ | ⟨i, relative⟩) <;> rw [hpr] at hcm
    · simp at hcm
    · simp only [Option.some.injEq, Prod.mk.injEq] at hcm
      obtain ⟨h1, h2⟩ := hcm
      subst h2
      exact ⟨by intro t r d b hmem; simp at hmem, Or.inl rfl⟩
    · simp only [Option.some.injEq, Prod.mk.injEq] at hcm
      obtain ⟨h1, h2⟩ := hcm
      subst h2
      refine ⟨by intro t r d b hmem; simp at hmem, Or.inr ⟨i, relative, rfl, ?_⟩⟩
      rw [← h1]

theorem C3_drag_capture_suppresses_hover_witness :
    lookupA exRelSt.devices 7 = some [(3, 1)]
    ∧ cursorMoved exWorld (fun _ _ => true) exRelSt 7 ⟨60, 60⟩
        = some ({ exRelSt with location := some ⟨60, 60⟩ },
            [OutEvent.mouseDrag 1 ⟨50, 50⟩ 7 3]) := by
  have h := (C3_drag_capture_suppresses_hover exWorld (fun _ _ => true)
    exRelSt 7 ⟨60, 60⟩).1 [(3, 1)] (fun _ => ⟨⟨10, 10⟩, 100, 50⟩) rfl
    (by intro e he; simp at he; subst he; rfl)
  exact ⟨rfl, by rw [h]; rfl⟩

/-- C7: with no active drag capture for the device, hover recomputation
probes the `widgets_at_point` candidates in topmost-first (latest
rendered first) order; the first candidate whose precise hit test passes
becomes the hovered widget and receives the hover-enter notification,
and when none passes hover is cleared tree-wide — so of two overlapping
widgets both containing the point, the one rendered later is selected. -/
theorem C7_hover_picks_topmost (w : WWorld) (hitTest : Nat → GPoint → Bool)
    (st : MouseState) (device : Nat) (location : GPoint)
    (hnone : lookupA st.devices device = none) :
    (∃ st' evs, cursorMoved w hitTest st device location = some (st', evs)
      ∧ st'.widget
          = (widgetsAtPoint w location).find? (probePasses w hitTest location)
      ∧ ((widgetsAtPoint w location).find? (probePasses w hitTest location)
            = none → evs = [OutEvent.clearHover])
      ∧ (∀ i, (widgetsAtPoint w location).find? (probePasses w hitTest location)
            = some i →
          evs = [OutEvent.hoverEnter i (location.sub (layoutOrigin w i))]))
    ∧ (∀ a b ra rb, w.renderOrder = [a, b] →
        w.lastLayout a = some ra → w.lastLayout b = some rb →
        ra.contains location = true → rb.contains location = true →
        hitTest a (location.sub ra.origin) = true →
        hitTest b (location.sub rb.origin) = true →
        ∀ st' evs, cursorMoved w hitTest st device location = some (st', evs) →
          st'.widget = some b) := by
  have hprobe := hoverProbe_eq_find w hitTest location (widgetsAtPoint w location)
    (widgetsAtPoint_layout_isSome w location)
  constructor
  · rcases hfind : (widgetsAtPoint w location).find?
        (probePasses w hitTest location) with _ | i
    · refine ⟨{ st with location := some location, widget := none },
        [OutEvent.clearHover], ?_, ?_, ?_, ?_⟩
      · simp only [cursorMoved, hnone, hprobe, hfind]
        rfl
      · simp [hfind]
      · intro; rfl
      · intro i hi; simp at hi
    · refine ⟨{ st with location := some location, widget := some i },
        [OutEvent.hoverEnter i (location.sub (layoutOrigin w i))],
        ?_, ?_, ?_, ?_⟩
      · simp only [cursorMoved, hnone, hprobe, hfind]
        rfl
      · simp [hfind]
      · intro hcontra; simp at hcontra
      · intro j hj
        simp only [Option.some.injEq] at hj
        subst hj
        rfl
  · intro a b ra rb hro hla hlb hca hcb hta htb st' evs hcm
    have hlist : widgetsAtPoint w location = [b, a] := by
      simp [widgetsAtPoint, hro, hla, hlb, hca, hcb]
    have hfind : (widgetsAtPoint w location).find?
        (probePasses w hitTest location) = some b := by
      rw [hlist]
      rw [List.find?_cons_of_pos _ (by simp [probePasses, hlb, htb])]
    simp only [cursorMoved, hnone, hprobe, hfind, Option.map_some',
      Option.some.injEq, Prod.mk.injEq] at hcm
    obtain ⟨h1, -⟩ := hcm
    rw [← h1]

def exHoverSt : MouseState :=
  { location := none, widget := none, devices := [] }

def exWorld2 : WWorld where
  tree := exTree
  lastLayout := exLayout
  renderOrder := [1, 2]

theorem C7_hover_picks_topmost_witness :
    lookupA exHoverSt.devices 7 = none
    ∧ ({ exHoverSt with location := some ⟨25, 25⟩, widget := some 2 }
        : MouseState).widget = some 2 :=
  ⟨rfl,
    (C7_hover_picks_topmost exWorld2 (fun _ _ => true) exHoverSt 7 ⟨25, 25⟩
      rfl).2 1 2 ⟨⟨10, 10⟩, 100, 50⟩ ⟨⟨20, 20⟩, 40, 20⟩ rfl rfl rfl rfl rfl
      rfl rfl _ _ rfl⟩

/-- `Px::MAX`: the largest signed pixel value (`i32::MAX`). -/
def pxMax : Int := 2147483647

/-- The resize limits a `Resize` node exposes, already scaled to
physical pixels (`into_px(scale)`); `none` models an unset limit. -/
structure ResizeLimits where
  minWidth : Option Int
  maxWidth : Option Int
  minHeight : Option Int
  maxHeight : Option Int
deriving DecidableEq, Repr

/-- One node of the root's wrap chain, as `constrain_window_resizing`
classifies it: a `Resize` node, an `Expand` node, or anything else. -/
inductive ChainNode where
  | resize (r : ResizeLimits)
  | expand
  | plain
deriving DecidableEq, Repr

/-- Whether a chain node is a `Resize` node. -/
def ChainNode.isResize : ChainNode → Bool
  | .resize _ => true
  | _ => false

/-- A push of OS-level window size constraints to the host
(`set_min_inner_size` / `set_max_inner_size`). -/
inductive SizeEvent where
  | setMinInner (s : Option (Int × Int))
  | setMaxInner (s : Option (Int × Int))
deriving DecidableEq, Repr

/-- The mutable state of the wrap-chain walk: the cached min/max inner
sizes, the expand flag, and the host pushes made so far. -/
structure ConstrainState where
  minInner : Option (Int × Int)
  maxInner : Option (Int × Int)
  isExpanded : Bool
  events : List SizeEvent
deriving DecidableEq, Repr

/-- The `new_min_size` a resize node computes: set when either minimum
is positive (missing minimums default to 0). -/
def newMinSize (r : ResizeLimits) : Option (Int × Int) :=
  let minWidth := r.minWidth.getD 0
  let minHeight := r.minHeight.getD 0
  if minWidth > 0 ∨ minHeight > 0 then some (minWidth, minHeight) else none

/-- The `new_max_size` a resize node computes (missing maximums default
to `Px::MAX`). -/
def newMaxSize (r : ResizeLimits) : Option (Int × Int) :=
  let maxWidth := r.maxWidth.getD pxMax
  let maxHeight := r.maxHeight.getD pxMax
  if maxWidth > 0 ∨ maxHeight > 0 then some (maxWidth, maxHeight) else none

/-- One iteration of the `constrain_window_resizing` loop body
(src/window.rs:329): a resize node pushes its min size when it differs
from the cache and its max size when it differs and the window is
resizable (the caches update regardless); an expand node sets the
expanded flag. -/
def constrainStep (resizable : Bool) (st : ConstrainState) (n : ChainNode) :
    ConstrainState :=
  match n with
  | .resize r =>
    let newMin := newMinSize r
    let st1 := if newMin ≠ st.minInner then
        { st with
            minInner := newMin
            events := st.events ++ [SizeEvent.setMinInner newMin] }
      else st
    let newMax := newMaxSize r
    if newMax ≠ st1.maxInner ∧ resizable then
      { st1 with
          maxInner := newMax
          events := st1.events ++ [SizeEvent.setMaxInner newMax] }
    else { st1 with maxInner := newMax }
  | .expand => { st with isExpanded := true }
  | .plain => st

/-- `GooeyWindow::constrain_window_resizing` (src/window.rs:320): walk
the root's wrap chain from the root to its innermost wrapped widget,
processing each node in order. -/
def constrain_window_resizing (resizable : Bool) (chain : List ChainNode)
    (st : ConstrainState) : ConstrainState :=
  chain.foldl (constrainStep resizable) st

/-- What the spec describes instead: the tightest (largest) minimum
width across every resize node of the chain.  Kept for comparison with
`constrain_window_resizing`; not part of the code. -/
def tightestMinWidth (chain : List ChainNode) : Int :=
  chain.foldl (fun acc n =>
    match n with
    | ChainNode.resize r => max acc (r.minWidth.getD 0)
    | _ => acc) 0

theorem constrainStep_nonresize_preserves (resizable : Bool)
    (st : ConstrainState) (n : ChainNode) (h : n.isResize = false) :
    (constrainStep resizable st n).minInner = st.minInner
    ∧ (constrainStep resizable st n).maxInner = st.maxInner := by
  cases n with
  | resize r => simp [ChainNode.isResize] at h
  | expand => simp [constrainStep]
  | plain => simp [constrainStep]

theorem foldl_nonresize_preserves (resizable : Bool) :
    ∀ (post : List ChainNode) (st : ConstrainState),
      (∀ n ∈ post, n.isResize = false) →
      ((post.foldl (constrainStep resizable) st).minInner = st.minInner
      ∧ (post.foldl (constrainStep resizable) st).maxInner = st.maxInner) := by
  intro post
  induction post with
  | nil => intro st _; exact ⟨rfl, rfl⟩
  | cons n rest ih =>
    intro st h
    have hn := constrainStep_nonresize_preserves resizable st n
      (h n (List.mem_cons_self n rest))
    have hr := ih (constrainStep resizable st n)
      (fun m hm => h m (List.mem_cons_of_mem n hm))
    rw [List.foldl_cons]
    exact ⟨hr.1.trans hn.1, hr.2.trans hn.2⟩

theorem constrainStep_resize (resizable : Bool) (st : ConstrainState)
    (r : ResizeLimits) :
    (constrainStep resizable st (ChainNode.resize r)).minInner = newMinSize r
    ∧ (constrainStep resizable st (ChainNode.resize r)).maxInner = newMaxSize r
    ∧ (constrainStep resizable st (ChainNode.resize r)).events
      = st.events
        ++ (if newMinSize r ≠ st.minInner
            then [SizeEvent.setMinInner (newMinSize r)] else [])
        ++ (if newMaxSize r ≠ st.maxInner ∧ resizable
            then [SizeEvent.setMaxInner (newMaxSize r)] else []) := by
  simp only [constrainStep]
  split_ifs with h1 h2 h2 <;> simp_all

/-- C4 counterexample: a wrap chain whose outer resize node asks for
minimum width 30 and whose inner resize node asks for minimum width 10.
The walk leaves the inner node's minimum (10) cached and pushed — not
the tightest seen (30): no tightest-accumulation happens. -/
theorem C4_counterexample :
    (constrain_window_resizing true
      [ChainNode.resize ⟨some 30, none, none, none⟩,
       ChainNode.resize ⟨some 10, none, none, none⟩]
      ⟨none, none, false, []⟩).minInner = some (10, 0)
    ∧ tightestMinWidth
        [ChainNode.resize ⟨some 30, none, none, none⟩,
         ChainNode.resize ⟨some 10, none, none, none⟩] = 30
    ∧ some ((10 : Int), (0 : Int)) ≠ some ((30 : Int), (0 : Int)) := by
  refine ⟨by decide, by decide, by decide⟩

/-- C4 (amended): the walk processes resize nodes in chain order, each
node overwriting the cached min/max with its own limits — so the last
resize node of the chain, not the tightest accumulation, determines the
final values; for each resize node the new minimum size is pushed to the
host exactly when it differs from the cached value, and the new maximum
size is pushed exactly when it differs and the window is user-resizable
(the cache updates regardless); an expand node only sets the expanded
flag. -/
theorem C4_resize_limits_last_node_wins (resizable : Bool)
    (st : ConstrainState) (r : ResizeLimits) (chain : List ChainNode) :
    ((constrainStep resizable st (ChainNode.resize r)).minInner = newMinSize r
     ∧ (constrainStep resizable st (ChainNode.resize r)).maxInner = newMaxSize r
     ∧ (constrainStep resizable st (ChainNode.resize r)).events
       = st.events
         ++ (if newMinSize r ≠ st.minInner
             then [SizeEvent.setMinInner (newMinSize r)] else [])
         ++ (if newMaxSize r ≠ st.maxInner ∧ resizable
             then [SizeEvent.setMaxInner (newMaxSize r)] else [])
     ∧ (constrainStep resizable st ChainNode.expand).isExpanded = true)
    ∧ (∀ post, (∀ n ∈ post, n.isResize = false) →
        (constrain_window_resizing resizable
            (chain ++ ChainNode.resize r :: post) st).minInner = newMinSize r
        ∧ (constrain_window_resizing resizable
            (chain ++ ChainNode.resize r :: post) st).maxInner
          = newMaxSize r) := by
  have hstep := constrainStep_resize resizable st r
  refine ⟨⟨hstep.1, hstep.2.1, hstep.2.2, by simp [constrainStep]⟩, ?_⟩
  intro post hpost
  have hmid := constrainStep_resize resizable
    (chain.foldl (constrainStep resizable) st) r
  have hpres := foldl_nonresize_preserves resizable post
    (constrainStep resizable (chain.foldl (constrainStep resizable) st)
      (ChainNode.resize r)) hpost
  constructor
  · rw [constrain_window_resizing, List.foldl_append, List.foldl_cons]
    exact hpres.1.trans hmid.1
  · rw [constrain_window_resizing, List.foldl_append, List.foldl_cons]
    exact hpres.2.trans hmid.2.1

theorem C4_resize_limits_last_node_wins_witness :
    (constrain_window_resizing true
        [ChainNode.plain, ChainNode.resize ⟨some 30, none, none, none⟩,
         ChainNode.expand] ⟨none, none, false, []⟩).minInner = some (30, 0)
    ∧ ([ChainNode.expand].all (fun n => !n.isResize)) = true := by
  have h := (C4_resize_limits_last_node_wins true ⟨none, none, false, []⟩
    ⟨some 30, none, none, none⟩ [ChainNode.plain]).2 [ChainNode.expand]
    (by decide)
  exact ⟨h.1.trans (by decide), by decide⟩

/-- Clamping of a requested size to the cached min/max inner sizes, as
`prepare` does before `request_inner_size` (src/window.rs:491). -/
def clampSize (s : Nat × Nat) (minInner maxInner : Option (Nat × Nat)) :
    Nat × Nat :=
  let s1 := match minInner with
    | some m => (max s.1 m.1, max s.2 m.2)
    | none => s
  match maxInner with
  | some m => (min s1.1 m.1, min s1.2 m.2)
  | none => s1

/-- `ConstraintLimit` — the layout constraint passed per axis to the
root widget. -/
inductive ConstraintLimit where
  | known (v : Nat)
  | clippedAfter (v : Nat)
deriving DecidableEq, Repr

/-- The outcome of the sizing part of one `prepare` frame. -/
structure PrepareOut where
  constraints : ConstraintLimit × ConstraintLimit
  actualSize : Nat × Nat
  renderSize : Nat × Nat
  resizeRequest : Option (Nat × Nat)
deriving DecidableEq, Repr

/-- The sizing logic of `GooeyWindow::prepare` (src/window.rs:478):
choose the root constraints from the expand flag, lay out the root
(`layoutFn` abstracts the root widget's layout), clamp the desired size
to the window size for rendering, and request a host resize to the
clamped desired size when it differs from the window size and the
window is not resizable. -/
def prepareLayout (resizable isExpanded : Bool) (windowSize : Nat × Nat)
    (layoutFn : ConstraintLimit × ConstraintLimit → Nat × Nat)
    (minInner maxInner : Option (Nat × Nat)) : PrepareOut :=
  let constraints := if isExpanded then
      (ConstraintLimit.known windowSize.1, ConstraintLimit.known windowSize.2)
    else
      (ConstraintLimit.clippedAfter windowSize.1,
       ConstraintLimit.clippedAfter windowSize.2)
  let actualSize := layoutFn constraints
  let renderSize := (min actualSize.1 windowSize.1, min actualSize.2 windowSize.2)
  let resizeRequest := if actualSize ≠ windowSize ∧ ¬resizable then
      some (clampSize actualSize minInner maxInner)
    else none
  ⟨constraints, actualSize, renderSize, resizeRequest⟩

/-- C8: in each frame the root is laid out with `Known` window-size
constraints on both axes when the expand marker was found and
`ClippedAfter` constraints otherwise; the render size is the
componentwise minimum of the desired size and the window size (hence
never exceeds the window); and a host resize to the desired size clamped
to the cached min/max inner sizes is requested exactly when the
unclamped desired size differs from the window size and the window is
not resizable. -/
theorem C8_prepare_constraints_and_resize (resizable isExpanded : Bool)
    (windowSize : Nat × Nat)
    (layoutFn : ConstraintLimit × ConstraintLimit → Nat × Nat)
    (minInner maxInner : Option (Nat × Nat)) :
    (prepareLayout resizable isExpanded windowSize layoutFn minInner
        maxInner).constraints
      = (if isExpanded then
          (ConstraintLimit.known windowSize.1, ConstraintLimit.known windowSize.2)
        else
          (ConstraintLimit.clippedAfter windowSize.1,
           ConstraintLimit.clippedAfter windowSize.2))
    ∧ (prepareLayout resizable isExpanded windowSize layoutFn minInner
        maxInner).renderSize
      = (min (prepareLayout resizable isExpanded windowSize layoutFn minInner
            maxInner).actualSize.1 windowSize.1,
         min (prepareLayout resizable isExpanded windowSize layoutFn minInner
            maxInner).actualSize.2 windowSize.2)
    ∧ (prepareLayout resizable isExpanded windowSize layoutFn minInner
        maxInner).renderSize.1 ≤ windowSize.1
    ∧ (prepareLayout resizable isExpanded windowSize layoutFn minInner
        maxInner).renderSize.2 ≤ windowSize.2
    ∧ (prepareLayout resizable isExpanded windowSize layoutFn minInner
        maxInner).resizeRequest
      = (if (prepareLayout resizable isExpanded windowSize layoutFn minInner
              maxInner).actualSize ≠ windowSize ∧ ¬resizable
         then some (clampSize (prepareLayout resizable isExpanded windowSize
              layoutFn minInner maxInner).actualSize minInner maxInner)
         else none)
    ∧ (resizable = true →
        (prepareLayout resizable isExpanded windowSize layoutFn minInner
          maxInner).resizeRequest = none) := by
  refine ⟨rfl, rfl, Nat.min_le_right _ _, Nat.min_le_right _ _, rfl, ?_⟩
  intro hres
  subst hres
  simp [prepareLayout]

theorem C8_prepare_constraints_and_resize_witness :
    (prepareLayout false true (200, 100) (fun _ => (300, 150)) none
        none).constraints
      = (ConstraintLimit.known 200, ConstraintLimit.known 100)
    ∧ (prepareLayout false true (200, 100) (fun _ => (300, 150)) none
        none).resizeRequest = some (300, 150)
    ∧ (prepareLayout true true (200, 100) (fun _ => (300, 150)) none
        none).resizeRequest = none := by
  refine ⟨?_, ?_, ?_⟩
  · exact (C8_prepare_constraints_and_resize false true (200, 100)
      (fun _ => (300, 150)) none none).1.trans (by decide)
  · exact (C8_prepare_constraints_and_resize false true (200, 100)
      (fun _ => (300, 150)) none none).2.2.2.2.1.trans (by decide)
  · exact (C8_prepare_constraints_and_resize true true (200, 100)
      (fun _ => (300, 150)) none none).2.2.2.2.2 rfl

/-- The tree's singleton id slots and node liveness as the keyboard
paths read them: `live i` models `Tree::widget(i).is_some()`, and the
slots hold the stored ids.  The root always resolves (it is owned by the
tree for the window's lifetime). -/
structure Slots where
  live : Nat → Bool
  root : Nat
  rootLive : live root = true
  focusedSlot : Option Nat
  defaultSlot : Option Nat
  escapeSlot : Option Nat
  hoveredSlot : Option Nat

/-- Modelled from the spec: `Tree::widget(id)` (the tree is not under
src/) — "O(1) lookup; fails silently (returns empty) if id unknown or
node removed".  The live node handle is the id itself. -/
def treeWidget (t : Slots) (id : Nat) : Option Nat :=
  if t.live id then some id else none

/-- Modelled from the spec: the `focused_widget()` accessor (not under
src/) — accessors return "the live node or none". -/
def focusedWidget (t : Slots) : Option Nat :=
  t.focusedSlot.bind (treeWidget t)

/-- Modelled from the spec: the `hovered_widget()` accessor, analogous
to `focused_widget`. -/
def hoveredWidget (t : Slots) : Option Nat :=
  t.hoveredSlot.bind (treeWidget t)

/-- The keyboard dispatch target resolution (src/window.rs:610): the
focused widget or else the root, then looked up in the tree; `none`
models the `expect("missing widget")` panic. -/
def keyboardTarget (t : Slots) : Option Nat :=
  treeWidget t ((focusedWidget t).getD t.root)

/-- The mouse-wheel target resolution (src/window.rs:695): the hovered
widget when it still resolves, the root otherwise. -/
def wheelTarget (t : Slots) : Nat :=
  ((hoveredWidget t).bind (treeWidget t)).getD t.root

/-- Keyboard activation side effects (`EventContext::activate` /
`deactivate` calls), in call order. -/
inductive ActEvent where
  | deactivate (w : Nat)
  | activate (w : Nat)
deriving DecidableEq, Repr

/-- `GooeyWindow::keyboard_activate_widget` (src/window.rs:273): on a
press, when the requested widget resolves, deactivate the previously
activated widget (if any) and then activate the new one, recording it;
on a release, deactivate whatever was keyboard-activated.  Returns the
new `keyboard_activated` slot and the activation calls made. -/
def keyboardActivateWidget (t : Slots) (isPressed : Bool)
    (widget : Option Nat) (activated : Option Nat) :
    Option Nat × List ActEvent :=
  if isPressed then
    match widget.bind (treeWidget t) with
    | some default =>
      (some default,
        (match activated with
         | some prev => [ActEvent.deactivate prev]
         | none => []) ++ [ActEvent.activate default])
    | none => (activated, [])
  else
    match activated with
    | some prev => (none, [ActEvent.deactivate prev])
    | none => (none, [])

/-- The reserved-key classification of the `keyboard_input` match
(src/window.rs:630). -/
inductive KeyAction where
  | charW
  | tab
  | enter
  | escape
  | other
deriving DecidableEq, Repr

/-- The modifier state `keyboard_input` queries. -/
structure Modifiers where
  primary : Bool
  shiftKey : Bool
  possibleShortcut : Bool
deriving DecidableEq, Repr

/-- Reserved key behaviors of `keyboard_input`. -/
inductive SpecialAction where
  | requestClose
  | advanceFocus (reverse : Bool)
  | act (e : ActEvent)
deriving DecidableEq, Repr

/-- The observable outcome of one `keyboard_input` call. -/
structure KeyResult where
  consumer : Option Nat
  specials : List SpecialAction
  activated : Option Nat
deriving DecidableEq, Repr

/-- `GooeyWindow::keyboard_input` (src/window.rs:602): resolve the
dispatch target (the focused widget or else the root; `none` models the
`expect("missing widget")` panic), bubble the key event from it, and
only when no widget consumed it run the reserved key behaviors:
primary+w close request, Tab focus advance, and Enter/Escape activation
of the default/escape widget. -/
def keyboardInput (t : Slots) (tr : GTree) (handler : Nat → EventHandling)
    (key : KeyAction) (mods : Modifiers) (pressed : Bool)
    (activated : Option Nat) : Option KeyResult :=
  match keyboardTarget t with
  | none => none
  | some target =>
    let consumer := recursivelyHandleEvent tr handler target
    if consumer.isSome then some ⟨consumer, [], activated⟩
    else
      match key with
      | .charW =>
        if mods.primary ∧ pressed then
          some ⟨consumer, [SpecialAction.requestClose], activated⟩
        else some ⟨consumer, [], activated⟩
      | .tab =>
        if ¬mods.possibleShortcut ∧ pressed then
          some ⟨consumer, [SpecialAction.advanceFocus mods.shiftKey], activated⟩
        else some ⟨consumer, [], activated⟩
      | .enter =>
        let r := keyboardActivateWidget t pressed t.defaultSlot activated
        some ⟨consumer, r.2.map SpecialAction.act, r.1⟩
      | .escape =>
        let r := keyboardActivateWidget t pressed t.escapeSlot activated
        some ⟨consumer, r.2.map SpecialAction.act, r.1⟩
      | .other => some ⟨consumer, [], activated⟩

theorem treeWidget_eq_some {t : Slots} {x y : Nat}
    (h : treeWidget t x = some y) : y = x ∧ t.live x = true := by
  by_cases hl : t.live x <;> simp_all [treeWidget]

theorem focusedWidget_live {t : Slots} {f : Nat}
    (h : focusedWidget t = some f) : treeWidget t f = some f := by
  cases hs : t.focusedSlot with
  | none => simp [focusedWidget, hs] at h
  | some x =>
    rw [focusedWidget, hs, Option.some_bind] at h
    obtain ⟨rfl, hl⟩ := treeWidget_eq_some h
    exact h

theorem keyboardTarget_isSome (t : Slots) :
    keyboardTarget t = some ((focusedWidget t).getD t.root) := by
  cases hf : focusedWidget t with
  | none => simp [keyboardTarget, hf, treeWidget, t.rootLive]
  | some f =>
    have := focusedWidget_live hf
    simp [keyboardTarget, hf, this]

/-- Slots whose focused and hovered slots hold a dead id (5) while the
root (0) and the default widget (1) are live. -/
def exSlots : Slots where
  live i := i == 0 || i == 1
  root := 0
  rootLive := rfl
  focusedSlot := some 5
  defaultSlot := some 1
  escapeSlot := none
  hoveredSlot := some 5

/-- C5 counterexample: with the focused slot holding an id (5) that no
longer resolves to a live node, a keyboard event is not a silent no-op —
dispatch falls back to the root, whose handler receives and consumes the
event. -/
theorem C5_counterexample :
    exSlots.live 5 = false
    ∧ exSlots.focusedSlot = some 5
    ∧ keyboardInput exSlots exTree (fun _ => EventHandling.handled)
        KeyAction.other ⟨false, false, false⟩ true none
      = some ⟨some 0, [], none⟩
    ∧ some (0 : Nat) ≠ (none : Option Nat) := by
  refine ⟨rfl, rfl, ?_, by decide⟩
  simp [keyboardInput, keyboardTarget, focusedWidget, treeWidget, exSlots,
    recursivelyHandleEvent, exTree]

/-- C5 (amended): a stored id that no longer resolves to a live node
never causes a panic or a propagated failure, but only default/escape
activation treats it as a silent no-op; keyboard dispatch instead falls
back to the root as its starting target (the dispatch still occurs), and
so does the wheel target. -/
theorem C5_missing_target_never_panics (t : Slots) (tr : GTree)
    (handler : Nat → EventHandling) (key : KeyAction) (mods : Modifiers)
    (pressed : Bool) (activated : Option Nat) (id : Nat)
    (hdead : t.live id = false) :
    (keyboardTarget t).isSome
    ∧ (keyboardInput t tr handler key mods pressed activated).isSome
    ∧ (t.focusedSlot = some id → keyboardTarget t = some t.root)
    ∧ (t.hoveredSlot = some id → wheelTarget t = t.root)
    ∧ keyboardActivateWidget t true (some id) activated = (activated, []) := by
  refine ⟨?_, ?_, ?_, ?_, ?_⟩
  · rw [keyboardTarget_isSome]
    rfl
  · rw [keyboardInput, keyboardTarget_isSome]
    by_cases h : (recursivelyHandleEvent tr handler
        ((focusedWidget t).getD t.root)).isSome
    · simp [h]
    · cases key <;> simp [h] <;> split <;> simp
  · intro hf
    have hfw : focusedWidget t = none := by
      simp [focusedWidget, hf, treeWidget, hdead]
    rw [keyboardTarget_isSome, hfw]
    simp [treeWidget, t.rootLive]
  · intro hh
    have hhw : hoveredWidget t = none := by
      simp [hoveredWidget, hh, treeWidget, hdead]
    rw [wheelTarget, hhw]
    rfl
  · simp [keyboardActivateWidget, treeWidget, hdead]

theorem C5_missing_target_never_panics_witness :
    exSlots.live 5 = false
    ∧ keyboardTarget exSlots = some 0
    ∧ wheelTarget exSlots = 0
    ∧ keyboardActivateWidget exSlots true (some 5) none = (none, []) := by
  have h := C5_missing_target_never_panics exSlots exTree
    (fun _ => EventHandling.ignored) KeyAction.other ⟨false, false, false⟩
    true none 5 rfl
  exact ⟨rfl, h.2.2.1 rfl, h.2.2.2.1 rfl, h.2.2.2.2⟩

/-- C9: at most one widget is keyboard-activated at a time — activating
a new widget first deactivates the previously activated one, in that
call order; an Enter press followed by its release activates then
deactivates the live default widget exactly once each, and a press with
no default widget set performs no activation (the escape widget path is
the same function applied to the escape slot). -/
theorem C9_activation_press_release_symmetric (t : Slots)
    (activated : Option Nat) (d : Nat) (hlive : t.live d = true) :
    (keyboardActivateWidget t true (some d) activated).1 = some d
    ∧ (keyboardActivateWidget t true (some d) activated).2
      = (match activated with
         | some prev => [ActEvent.deactivate prev]
         | none => []) ++ [ActEvent.activate d]
    ∧ ((keyboardActivateWidget t true (some d) none).2
        ++ (keyboardActivateWidget t false (some d)
              (keyboardActivateWidget t true (some d) none).1).2
       = [ActEvent.activate d, ActEvent.deactivate d])
    ∧ (keyboardActivateWidget t false (some d)
        (keyboardActivateWidget t true (some d) none).1).1 = none
    ∧ keyboardActivateWidget t true none activated = (activated, []) := by
  refine ⟨?_, ?_, ?_, ?_, ?_⟩
  · simp [keyboardActivateWidget, treeWidget, hlive]
  · simp [keyboardActivateWidget, treeWidget, hlive]
  · simp [keyboardActivateWidget, treeWidget, hlive]
  · simp [keyboardActivateWidget, treeWidget, hlive]
  · simp [keyboardActivateWidget]

theorem C9_activation_press_release_symmetric_witness :
    exSlots.live 1 = true
    ∧ ((keyboardActivateWidget exSlots true (some 1) none).2
        ++ (keyboardActivateWidget exSlots false (some 1)
              (keyboardActivateWidget exSlots true (some 1) none).1).2
       = [ActEvent.activate 1, ActEvent.deactivate 1])
    ∧ keyboardActivateWidget exSlots true none none = (none, []) := by
  have h := C9_activation_press_release_symmetric exSlots none 1 rfl
  exact ⟨rfl, h.2.2.1, h.2.2.2.2⟩

/-- C10: the reserved key behaviors (primary+w close request, Tab focus
advance, Enter/Escape activation) run only when the event has first
bubbled from the focused widget (or the root when none is focused) and
no widget consumed it; when some widget returns Handled, no reserved
behavior runs and the activation state is untouched. -/
theorem C10_reserved_keys_only_when_unconsumed (t : Slots) (tr : GTree)
    (handler : Nat → EventHandling) (key : KeyAction) (mods : Modifiers)
    (pressed : Bool) (activated : Option Nat) (r : KeyResult)
    (h : keyboardInput t tr handler key mods pressed activated = some r) :
    r.consumer = recursivelyHandleEvent tr handler
        ((focusedWidget t).getD t.root)
    ∧ (r.consumer.isSome → r.specials = [] ∧ r.activated = activated)
    ∧ (r.specials ≠ [] ∨ r.activated ≠ activated → r.consumer = none) := by
  rw [keyboardInput, keyboardTarget_isSome] at h
  rcases hcv : recursivelyHandleEvent tr handler ((focusedWidget t).getD t.root)
    with _ | w
  · cases key
    · simp [hcv] at h
      split at h
      · rw [Option.some.injEq] at h
        subst h
        exact ⟨rfl, by simp, fun _ => rfl⟩
      · rw [Option.some.injEq] at h
        subst h
        exact ⟨rfl, by simp, fun _ => rfl⟩
    · simp [hcv] at h
      split at h
      · rw [Option.some.injEq] at h
        subst h
        exact ⟨rfl, by simp, fun _ => rfl⟩
      · rw [Option.some.injEq] at h
        subst h
        exact ⟨rfl, by simp, fun _ => rfl⟩
    · simp [hcv] at h
      subst h
      exact ⟨rfl, by simp, fun _ => rfl⟩
    · simp [hcv] at h
      subst h
      exact ⟨rfl, by simp, fun _ => rfl⟩
    · simp [hcv] at h
      subst h
      exact ⟨rfl, by simp, fun _ => rfl⟩
  · simp [hcv] at h
    subst h
    refine ⟨rfl, fun _ => ⟨rfl, rfl⟩, ?_⟩
    intro hcon
    rcases hcon with h1 | h1 <;> simp at h1

theorem C10_reserved_keys_only_when_unconsumed_witness :
    keyboardInput exSlots exTree (fun _ => EventHandling.handled)
        KeyAction.enter ⟨false, false, false⟩ true none
      = some ⟨some 0, [], none⟩
    ∧ (⟨some 0, [], none⟩ : KeyResult).specials = [] := by
  have hk : keyboardInput exSlots exTree (fun _ => EventHandling.handled)
      KeyAction.enter ⟨false, false, false⟩ true none
      = some ⟨some 0, [], none⟩ := by
    simp [keyboardInput, keyboardTarget, focusedWidget, treeWidget, exSlots,
      recursivelyHandleEvent, exTree]
  have h := C10_reserved_keys_only_when_unconsumed exSlots exTree
    (fun _ => EventHandling.handled) KeyAction.enter ⟨false, false, false⟩
    true none ⟨some 0, [], none⟩ hk
  exact ⟨hk, (h.2.1 (by decide)).1⟩

end Cushy
